import Mathlib

/-
  Verification of the NextBI multi-agent orchestrator.

  Shallow embedding of the routing, parsing and state-update logic of
  src/agents/manager_agent.py, src/agents/teradata_agent.py,
  src/agents/plot_agent.py, src/multi_agents/multi_agent.py and
  src/graph_agents/multi_agent.py.  Python dynamic values are modelled
  by a small JSON value type; json.loads is modelled by an executable
  recursive-descent routine; str.replace, substring membership, lower
  casing and textwrap.fill are modelled by executable list functions.
-/

namespace NextBI

/-- Model of a Python / JSON dynamic value.  Python None is `null`;
non-integral number literals are kept as their lexeme in `flt`. -/
inductive Json where
  | null : Json
  | bool (b : Bool) : Json
  | num (n : Int) : Json
  | flt (lit : String) : Json
  | str (s : String) : Json
  | arr (xs : List Json) : Json
  | obj (fields : List (String × Json)) : Json
deriving Repr

mutual

/-- Structural equality test on `Json`, modelling Python == on parsed
JSON data (types never compare equal across constructors). -/
def Json.beq : Json → Json → Bool
  | .null, .null => true
  | .bool a, .bool b => a == b
  | .num a, .num b => a == b
  | .flt a, .flt b => a == b
  | .str a, .str b => a == b
  | .arr a, .arr b => Json.beqList a b
  | .obj a, .obj b => Json.beqFields a b
  | _, _ => false

/-- Elementwise equality of JSON lists. -/
def Json.beqList : List Json → List Json → Bool
  | [], [] => true
  | a :: as2, b :: bs2 => Json.beq a b && Json.beqList as2 bs2
  | _, _ => false

/-- Elementwise equality of JSON object field lists. -/
def Json.beqFields : List (String × Json) → List (String × Json) → Bool
  | [], [] => true
  | (ka, va) :: as2, (kb, vb) :: bs2 => ka == kb && Json.beq va vb && Json.beqFields as2 bs2
  | _, _ => false

end

/-- Lookup of a key in a JSON object field list (Python dict access on
a dict built by `dictInsert`, so keys are unique and the first hit is
the binding). -/
def jLookup (fs : List (String × Json)) (k : String) : Option Json :=
  match fs with
  | [] => none
  | (k2, v) :: rest => if k2 = k then some v else jLookup rest k

/-- Insertion into a JSON object field list with Python dict semantics:
an existing key keeps its position and gets the new value, a new key is
appended.  json.loads applies this per member, so a duplicated key ends
with the last value. -/
def dictInsert (fs : List (String × Json)) (k : String) (v : Json) : List (String × Json) :=
  if fs.any (fun p => p.1 = k) then
    fs.map (fun p => if p.1 = k then (k, v) else p)
  else
    fs ++ [(k, v)]

/-- Python truthiness of a dynamic value: None, False, 0, empty string,
empty list and empty dict are falsy. -/
def jTruthy : Json → Bool
  | .null => false
  | .bool b => b
  | .num n => n != 0
  | .flt lit => !((lit.toList.filter Char.isDigit).all (fun c => c = Char.ofNat 48))
  | .str s => s != ""
  | .arr xs => !xs.isEmpty
  | .obj fs => !fs.isEmpty

/-- Single-quote character, written via its code point. -/
def sqChar : Char := Char.ofNat 39

mutual

/-- Model of Python repr for a parsed JSON value (container elements are
rendered with repr, strings in single quotes; escape subtleties of repr
are not modelled). -/
def pyRepr : Json → String
  | .null => "None"
  | .bool b => if b then "True" else "False"
  | .num n => toString n
  | .flt lit => lit
  | .str s => String.singleton sqChar ++ s ++ String.singleton sqChar
  | .arr xs => "[" ++ String.intercalate ", " (pyReprList xs) ++ "]"
  | .obj fs => "\x7b" ++ String.intercalate ", " (pyReprFields fs) ++ "\x7d"

/-- repr of each element of a JSON list. -/
def pyReprList : List Json → List String
  | [] => []
  | x :: xs => pyRepr x :: pyReprList xs

/-- repr of each member of a JSON object. -/
def pyReprFields : List (String × Json) → List String
  | [] => []
  | (k, v) :: fs =>
      (String.singleton sqChar ++ k ++ String.singleton sqChar ++ ": " ++ pyRepr v)
        :: pyReprFields fs

end

/-- Model of Python str() on a dynamic value: a string renders as
itself, every other value as its repr. -/
def pyStr : Json → String
  | .str s => s
  | v => pyRepr v

/-- Model of str.lower for the ASCII range (Char.toLower lowers ASCII
letters only, which covers every string the agents compare). -/
def pyLower (s : String) : String :=
  String.mk (s.toList.map Char.toLower)

/-- Substring membership on character lists: true when `needle` occurs
contiguously in the list.  Models the Python `in` operator on str. -/
def containsL (needle : List Char) : List Char → Bool
  | [] => needle.isEmpty
  | c :: cs => needle.isPrefixOf (c :: cs) || containsL needle cs

/-- Python `needle in hay` on strings. -/
def strContains (hay needle : String) : Bool :=
  containsL needle.toList hay.toList

/-- Replacement of every non-overlapping occurrence of `n` by `r`,
scanning left to right; models Python str.replace for a non-empty
pattern.  The fuel argument only bounds the recursion: one unit is
spent per scanned position and every step consumes at least one
character, so fuel equal to the list length never runs out (fuel
exhaustion returns the remaining input unchanged). -/
def replaceL (n r : List Char) : Nat → List Char → List Char
  | 0, cs => cs
  | _ + 1, [] => []
  | fuel + 1, c :: cs =>
      if !n.isEmpty && n.isPrefixOf (c :: cs) then
        r ++ replaceL n r fuel ((c :: cs).drop n.length)
      else
        c :: replaceL n r fuel cs

/-- Python s.replace(pat, repl) for non-empty pat. -/
def pyReplace (s pat repl : String) : String :=
  String.mk (replaceL pat.toList repl.toList s.toList.length s.toList)

/-! ## A strict JSON reader modelling Python json.loads -/

/-- JSON insignificant whitespace. -/
def jsonWs (c : Char) : Bool :=
  c = ' ' || c = Char.ofNat 9 || c = Char.ofNat 10 || c = Char.ofNat 13

/-- Drop leading JSON whitespace. -/
def skipWs : List Char → List Char
  | [] => []
  | c :: cs => if jsonWs c then skipWs cs else c :: cs

/-- Value of a hexadecimal digit. -/
def hexVal (c : Char) : Option Nat :=
  if c.isDigit then some (c.toNat - 48)
  else if Char.ofNat 97 ≤ c ∧ c ≤ Char.ofNat 102 then some (c.toNat - 87)
  else if Char.ofNat 65 ≤ c ∧ c ≤ Char.ofNat 70 then some (c.toNat - 55)
  else none

/-- Unescaped character for a single-letter JSON escape. -/
def escChar (c : Char) : Option Char :=
  if c = Char.ofNat 34 then some (Char.ofNat 34)
  else if c = Char.ofNat 92 then some (Char.ofNat 92)
  else if c = Char.ofNat 47 then some (Char.ofNat 47)
  else if c = 'b' then some (Char.ofNat 8)
  else if c = 'f' then some (Char.ofNat 12)
  else if c = 'n' then some (Char.ofNat 10)
  else if c = 'r' then some (Char.ofNat 13)
  else if c = 't' then some (Char.ofNat 9)
  else none

/-- Read the body of a JSON string after the opening quote; returns the
decoded characters and the remainder after the closing quote.  Escapes
are decoded; surrogate-pair recombination is not modelled. -/
def parseStrChars : Nat → List Char → Option (List Char × List Char)
  | 0, _ => none
  | _, [] => none
  | fuel + 1, c :: cs =>
      if c = Char.ofNat 34 then some ([], cs)
      else if c = Char.ofNat 92 then
        match cs with
        | [] => none
        | e :: cs2 =>
            if e = 'u' then
              match cs2 with
              | h1 :: h2 :: h3 :: h4 :: cs3 => do
                  let v1 ← hexVal h1
                  let v2 ← hexVal h2
                  let v3 ← hexVal h3
                  let v4 ← hexVal h4
                  let (rest, rem) ← parseStrChars fuel cs3
                  some (Char.ofNat (((v1 * 16 + v2) * 16 + v3) * 16 + v4) :: rest, rem)
              | _ => none
            else do
              let ch ← escChar e
              let (rest, rem) ← parseStrChars fuel cs2
              some (ch :: rest, rem)
      else if c.toNat < 32 then none
      else do
        let (rest, rem) ← parseStrChars fuel cs
        some (c :: rest, rem)

/-- Natural number denoted by a list of decimal digits. -/
def natOfDigits (ds : List Char) : Nat :=
  ds.foldl (fun a c => a * 10 + (c.toNat - 48)) 0

/-- Read a JSON number (strict grammar: optional minus, no leading
zeros, optional fraction and exponent).  An integral literal becomes
`num`, any other number keeps its lexeme in `flt`. -/
def parseNum (cs : List Char) : Option (Json × List Char) :=
  let (neg, cs1) :=
    match cs with
    | c :: rest => if c = Char.ofNat 45 then (true, rest) else (false, cs)
    | [] => (false, cs)
  match cs1 with
  | [] => none
  | c :: _ =>
      if !c.isDigit then none
      else
        let intPart := cs1.takeWhile Char.isDigit
        let rest1 := cs1.dropWhile Char.isDigit
        if intPart.length > 1 && intPart.headD ' ' = Char.ofNat 48 then none
        else
          let (fracPart, rest2) :=
            match rest1 with
            | d :: r =>
                if d = Char.ofNat 46 then
                  let fs := r.takeWhile Char.isDigit
                  (some fs, r.dropWhile Char.isDigit)
                else (none, rest1)
            | [] => (none, rest1)
          match fracPart with
          | some [] => none
          | _ =>
            let (expPart, rest3) :=
              match rest2 with
              | e :: r =>
                  if e = 'e' || e = 'E' then
                    let (sign, r2) :=
                      match r with
                      | s :: r3 =>
                          if s = Char.ofNat 43 || s = Char.ofNat 45 then ([s], r3)
                          else (([] : List Char), r)
                      | [] => ([], r)
                    let ds := r2.takeWhile Char.isDigit
                    (some (e :: sign ++ ds), r2.dropWhile Char.isDigit)
                  else (none, rest2)
              | [] => (none, rest2)
            match expPart with
            | some lex =>
                if lex.getLast? = some 'e' || lex.getLast? = some 'E' ||
                   lex.getLast? = some (Char.ofNat 43) || lex.getLast? = some (Char.ofNat 45) then
                  none
                else
                  let lexAll := (if neg then [Char.ofNat 45] else []) ++ intPart ++
                    (match fracPart with
                     | some fs => Char.ofNat 46 :: fs
                     | none => []) ++ lex
                  some (.flt (String.mk lexAll), rest3)
            | none =>
                match fracPart with
                | some fs =>
                    let lexAll := (if neg then [Char.ofNat 45] else []) ++ intPart ++
                      Char.ofNat 46 :: fs
                    some (.flt (String.mk lexAll), rest3)
                | none =>
                    let v : Int := Int.ofNat (natOfDigits intPart)
                    some (.num (if neg then -v else v), rest3)

/-- Literal continuation helper for true / false / null. -/
def matchLit (lit : List Char) (cs : List Char) (v : Json) : Option (Json × List Char) :=
  if lit.isPrefixOf cs then some (v, cs.drop lit.length) else none

/-- Opening brace character. -/
def braceL : Char := Char.ofNat 123

/-- Closing brace character. -/
def braceR : Char := Char.ofNat 125

mutual

/-- Read one JSON value (fuelled recursive descent). -/
def parseVal : Nat → List Char → Option (Json × List Char)
  | 0, _ => none
  | fuel + 1, cs0 =>
      match skipWs cs0 with
      | [] => none
      | c :: rest =>
          if c = Char.ofNat 34 then
            match parseStrChars (rest.length + 1) rest with
            | some (content, rem) => some (.str (String.mk content), rem)
            | none => none
          else if c = braceL then parseMembersFirst fuel rest
          else if c = '[' then parseElemsFirst fuel rest
          else if c = 't' then matchLit [Char.ofNat 114, 'u', 'e'] rest (.bool true)
          else if c = 'f' then matchLit ['a', 'l', 's', 'e'] rest (.bool false)
          else if c = 'n' then matchLit ['u', 'l', 'l'] rest .null
          else parseNum (c :: rest)

/-- Read the members of an object after the opening brace, allowing the
empty object. -/
def parseMembersFirst : Nat → List Char → Option (Json × List Char)
  | 0, _ => none
  | fuel + 1, cs =>
      match skipWs cs with
      | [] => none
      | c :: rest =>
          if c = braceR then some (.obj [], rest)
          else parseMembers fuel (c :: rest) []

/-- Read a non-empty comma-separated member list ending at a closing
brace. -/
def parseMembers : Nat → List Char → List (String × Json) → Option (Json × List Char)
  | 0, _, _ => none
  | fuel + 1, cs, acc =>
      match skipWs cs with
      | [] => none
      | c :: rest =>
          if c = Char.ofNat 34 then
            match parseStrChars (rest.length + 1) rest with
            | some (key, rem) =>
                match skipWs rem with
                | c2 :: rem2 =>
                    if c2 = ':' then
                      match parseVal fuel rem2 with
                      | some (v, rem3) =>
                          let acc2 := dictInsert acc (String.mk key) v
                          match skipWs rem3 with
                          | c3 :: rem4 =>
                              if c3 = ',' then parseMembers fuel rem4 acc2
                              else if c3 = braceR then some (.obj acc2, rem4)
                              else none
                          | [] => none
                      | none => none
                    else none
                | [] => none
            | none => none
          else none

/-- Read the elements of an array after the opening bracket, allowing
the empty array. -/
def parseElemsFirst : Nat → List Char → Option (Json × List Char)
  | 0, _ => none
  | fuel + 1, cs =>
      match skipWs cs with
      | [] => none
      | c :: rest =>
          if c = ']' then some (.arr [], rest)
          else parseElems fuel (c :: rest) []

/-- Read a non-empty comma-separated element list ending at a closing
bracket. -/
def parseElems : Nat → List Char → List Json → Option (Json × List Char)
  | 0, _, _ => none
  | fuel + 1, cs, acc =>
      match parseVal fuel cs with
      | some (v, rem) =>
          match skipWs rem with
          | c :: rem2 =>
              if c = ',' then parseElems fuel rem2 (acc ++ [v])
              else if c = ']' then some (.arr (acc ++ [v]), rem2)
              else none
          | [] => none
      | none => none

end

/-- Model of Python json.loads: parse one value and require only
whitespace after it; any parse error yields none (the exception). -/
def pyJsonLoads (s : String) : Option Json :=
  match parseVal (2 * s.length + 8) s.toList with
  | some (v, rem) => if skipWs rem = [] then some v else none
  | none => none

/-! ## Shared state and exception model -/

/-- Python exception values that the embedded code can raise or store. -/
inductive PyExc where
  | valueError (msg : String)
  | keyError (key : String)
  | typeError (msg : String)
  | attributeError (msg : String)
  | other (name msg : String)
deriving Repr

/-- A dynamically typed value stored in a state field: either plain
data or an exception object (the Teradata agent stores the caught
ValueError object itself). -/
inductive PyVal where
  | json (j : Json)
  | exc (e : PyExc)
deriving Repr

/-- The MultiAgentState TypedDict of src/states/multi_agent_state.py.
A field that is absent from the runtime dict or present with value None
is modelled as none; `done` models the truthiness of state.get("done")
and is false when the key is absent (nothing in the multi_agents
package ever writes it). -/
structure MState where
  done : Bool := false
  user_query : String := ""
  messages : List (String × Json) := []
  response : Option PyVal := none
  explanation : Option PyVal := none
  manager_decision : Option String := none
  td_agent_response : Option PyVal := none
  plot_agent_response : Option PyVal := none
  sql_queries : Option String := none
  is_plot : Bool := false
deriving Repr

/-- Store a Python value into an optional state field: None becomes an
absent value, anything else is kept. -/
def jsonToField (v : Json) : Option PyVal :=
  match v with
  | .null => none
  | v => some (.json v)

/-- Result dictionary of AgentExecutor.ainvoke: the final output text
and the intermediate steps as (action.tool, observation) pairs, each
observation given as the obs_json value it yields after the log
extraction and json.loads stage of _process_intermediate_logs (a
falsy or unparseable observation yields the empty object). -/
structure AgentResponse where
  output : String
  intermediate_steps : List (String × Json) := []
deriving Repr

/-! ## ManagerAgent.__call__ (src/agents/manager_agent.py) -/

/-- Leading fence marker removed by the manager. -/
def fenceJson : String := "```json"

/-- Trailing fence variant with a newline; note that it begins with the
closing brace of the JSON object. -/
def fenceCloseNl : String := "\x7d\n```"

/-- Trailing fence variant without a newline; it also begins with the
closing brace. -/
def fenceClose : String := "\x7d```"

/-- The three replace calls the manager applies to the raw output text
before json.loads. -/
def stripFences (raw : String) : String :=
  pyReplace (pyReplace (pyReplace raw fenceJson "") fenceCloseNl "") fenceClose ""

/-- Outcome of the try block of ManagerAgent.__call__: either the
parsed triple together with the parsed fields, or the fallback with the
text that the except branch computes.  In the fallback, `fallbackDict`
records that the local variable response holds a parsed dict at the
point of the exception (field access failed), while `fallbackText`
records that it holds a string, namely the stripped text when
json.loads raised or str of the parsed value when it was not a dict. -/
inductive ManagerParsed where
  | parsedOk (fields : List (String × Json)) (decision : String) (message explanation : Json)
  | fallbackDict (fields : List (String × Json)) (text : Json)
  | fallbackText (text : String)
deriving Repr

/-- The try / except of ManagerAgent.__call__ applied to the raw output
text: strip the fence markers, json.loads the remainder, read decision
(lower-cased), message and explanation; on any exception compute the
fallback text (response.get("output", "") when response is a dict at
that point, str(response) otherwise). -/
def managerParse (raw : String) : ManagerParsed :=
  match pyJsonLoads (stripFences raw) with
  | none => .fallbackText (stripFences raw)
  | some (.obj fs) =>
      match jLookup fs "decision" with
      | some (.str d) =>
          match jLookup fs "message", jLookup fs "explanation" with
          | some m, some e => .parsedOk fs (pyLower d) m e
          | _, _ => .fallbackDict fs ((jLookup fs "output").getD (.str ""))
      | some _ => .fallbackDict fs ((jLookup fs "output").getD (.str ""))
      | none => .fallbackDict fs ((jLookup fs "output").getD (.str ""))
  | some v => .fallbackText (pyStr v)

/-- The lower-cased decision text available after the try / except:
the parsed decision field on success, the literal "done" otherwise. -/
def managerDecisionText (raw : String) : String :=
  match managerParse raw with
  | .parsedOk _ d _ _ => d
  | _ => "done"

/-- The message value available after the try / except (the fallback
text in the except branch). -/
def managerMessage (raw : String) : Json :=
  match managerParse raw with
  | .parsedOk _ _ m _ => m
  | .fallbackDict _ t => t
  | .fallbackText t => .str t

/-- The explanation value available after the try / except (the
fallback text in the except branch). -/
def managerExplanation (raw : String) : Json :=
  match managerParse raw with
  | .parsedOk _ _ _ e => e
  | .fallbackDict _ t => t
  | .fallbackText t => .str t

/-- Normalization of the decision text through the membership branches
of the source: substring-test against teradata, then plot, then done,
first match wins, and no match defaults to done (the elif done and the
else branch of the source both store done). -/
def normalizeDecision (d : String) : String :=
  if strContains d "teradata" then "teradata"
  else if strContains d "plot" then "plot"
  else if strContains d "done" then "done"
  else "done"

/-- The value assigned to state["response"]: the message when it is not
None, otherwise the subscript response["output"] evaluated on whatever
the local variable response holds at that point (the parsed dict on the
paths that can reach this with None; a KeyError or TypeError on the
remaining paths). -/
def managerRespVal (raw : String) : Except PyExc Json :=
  if Json.beq (managerMessage raw) .null then
    match managerParse raw with
    | .parsedOk fs _ _ _ =>
        match jLookup fs "output" with
        | some v => .ok v
        | none => .error (.keyError "output")
    | .fallbackDict fs _ =>
        match jLookup fs "output" with
        | some v => .ok v
        | none => .error (.keyError "output")
    | .fallbackText _ => .error (.typeError "string indices must be integers")
  else .ok (managerMessage raw)

/-- Value-level outcome of ManagerAgent.__call__ for the raw output
text: the normalized decision, the value assigned to state["response"],
and the explanation value; Python crash paths appear as errors. -/
def managerOutcome (raw : String) : Except PyExc (String × Json × Json) :=
  match managerRespVal raw with
  | .error e => .error e
  | .ok rv => .ok (normalizeDecision (managerDecisionText raw), rv, managerExplanation raw)

/-- ManagerAgent.__call__ after the LLM returned the raw text `raw` as
response["output"]: compute the outcome, then write manager_decision,
response and explanation and append the manager message to the
conversation.  Logging is not modelled. -/
def managerCall (raw : String) (s : MState) : Except PyExc MState :=
  match managerOutcome raw with
  | .error e => .error e
  | .ok (md, rv, ev) =>
      .ok { s with
        manager_decision := some md,
        response := jsonToField rv,
        explanation := jsonToField ev,
        messages := s.messages ++ [("manager", rv)] }

/-! ## TeradataAgent (src/agents/teradata_agent.py) -/

/-- Python obs_json.get(k): attribute error when the value is not a
dict (json.loads can return any JSON value). -/
def pyDictGet (j : Json) (k : String) : Except PyExc (Option Json) :=
  match j with
  | .obj fs => .ok (jLookup fs k)
  | _ => .error (.attributeError "get")

/-- Python obs_json.get(k, d) with a default. -/
def pyDictGetD (j : Json) (k : String) (d : Json) : Except PyExc Json :=
  match j with
  | .obj fs => .ok ((jLookup fs k).getD d)
  | _ => .error (.attributeError "get")

/-- Break a character list into chunks of at most `w` characters; the
fuel (one unit per chunk, each chunk takes at least one character)
never runs out when it starts at the list length. -/
def chunksOf (w : Nat) : Nat → List Char → List (List Char)
  | 0, _ => []
  | _ + 1, [] => []
  | fuel + 1, c :: cs => (c :: cs.take (w - 1)) :: chunksOf w fuel (cs.drop (w - 1))

/-- Split a character list at every space. -/
def splitOnSpace : List Char → List (List Char)
  | [] => [[]]
  | c :: cs =>
      match splitOnSpace cs with
      | [] => [[c]]
      | g :: gs => if c = ' ' then [] :: g :: gs else (c :: g) :: gs

/-- Whitespace-normalized word list of a text (each whitespace
character becomes a space, words are the non-empty space-separated
pieces), as textwrap does with its default settings. -/
def splitWords (s : String) : List String :=
  ((splitOnSpace (s.toList.map (fun c => if c.isWhitespace then ' ' else c))).map
      String.mk).filter (fun w => w != "")

/-- Model of textwrap.fill(s, width) with default settings: greedy word
wrap at the given width joined by newlines, words longer than the width
broken into width-sized chunks. -/
def pyFill (width : Nat) (s : String) : String :=
  let words :=
    ((splitWords s).map (fun w => (chunksOf width w.toList.length w.toList).map String.mk)).flatten
  let step := fun (acc : List String × String) (w : String) =>
    match acc with
    | (lines, cur) =>
        if cur = "" then (lines, w)
        else if cur.length + 1 + w.length ≤ width then (lines, cur ++ " " ++ w)
        else (lines ++ [cur], w)
  let r := words.foldl step ([], "")
  String.intercalate "\n" (if r.2 = "" then r.1 else r.1 ++ [r.2])

/-- Heading line that _process_intermediate_logs seeds sql_message
with. -/
def sqlHeading : String := "\n\n**SQL Commands:**\n"

/-- One fenced SQL block as appended to sql_message. -/
def sqlBlock (sql : String) : String :=
  "\n```sql\n" ++ pyFill 100 sql ++ "\n```\n"

/-- Loop body of _process_intermediate_logs for one observation value:
read status, and when it is truthy and equals "success" read
metadata.sql; a truthy sql value is appended as a fenced block (a
non-string truthy sql would crash textwrap.fill).  The accumulator is
the pair (found_sql, sql_message). -/
def processStep (acc : Bool × List String) (obs : Json) : Except PyExc (Bool × List String) :=
  match pyDictGet obs "status" with
  | .error e => .error e
  | .ok none => .ok acc
  | .ok (some st) =>
      if jTruthy st then
        if Json.beq st (.str "success") then
          match pyDictGetD obs "metadata" (.obj []) with
          | .error e => .error e
          | .ok md =>
              match pyDictGet md "sql" with
              | .error e => .error e
              | .ok none => .ok acc
              | .ok (some sv) =>
                  if jTruthy sv then
                    match sv with
                    | .str s => .ok (true, acc.2 ++ [sqlBlock s])
                    | _ => .error (.attributeError "fill expects a string")
                  else .ok acc
        else .ok acc
      else .ok acc

/-- The for loop of _process_intermediate_logs threading the
(found_sql, sql_message) accumulator over the observation values. -/
def processLoop : List Json → (Bool × List String) → Except PyExc (Bool × List String)
  | [], acc => .ok acc
  | obs :: rest, acc =>
      match processStep acc obs with
      | .error e => .error e
      | .ok acc2 => processLoop rest acc2

/-- TeradataAgent._process_intermediate_logs over the observation
values of the intermediate steps: newline-join of the heading and the
collected blocks when SQL was found, None otherwise. -/
def processIntermediateLogs (obss : List Json) : Except PyExc (Option String) :=
  match processLoop obss (false, [sqlHeading]) with
  | .error e => .error e
  | .ok r => .ok (if r.1 then some (String.intercalate "\n" r.2) else none)

/-- TeradataAgent.__call__ given the outcome of the underlying
agent_executor.ainvoke call: a raised ValueError is caught and the
exception object is stored as td_agent_response, any other exception
propagates; on success the output text is stored and the processed SQL
markdown (or None) is written to sql_queries. -/
def teradataCall (invokeResult : Except PyExc AgentResponse) (s : MState) :
    Except PyExc MState :=
  match invokeResult with
  | .error (.valueError m) =>
      .ok { s with td_agent_response := some (.exc (.valueError m)) }
  | .error e => .error e
  | .ok resp =>
      match processIntermediateLogs (resp.intermediate_steps.map Prod.snd) with
      | .error e => .error e
      | .ok sq =>
          .ok { s with
            td_agent_response := some (.json (.str resp.output)),
            sql_queries := sq }

/-! ## PlotAgent.__call__ (src/agents/plot_agent.py) -/

/-- PlotAgent.__call__ given the ainvoke result: is_plot is set to true
exactly when the response carries at least one intermediate step (the
only tool of this agent is the Python code-execution tool), otherwise
it keeps its previous value; the output text is stored as
plot_agent_response.  An absent intermediate_steps key is the empty
list. -/
def plotCall (resp : AgentResponse) (s : MState) : MState :=
  let s1 :=
    if resp.intermediate_steps.length > 0 then { s with is_plot := true } else s
  { s1 with plot_agent_response := some (.json (.str resp.output)) }

/-! ## MultiAgent orchestrator (src/multi_agents/multi_agent.py) -/

/-- The langgraph END sentinel. -/
def ENDToken : String := "__end__"

/-- MultiAgent.route_decision: END when done is truthy, else route on
substring membership of the manager decision (absent decision means the
empty string). -/
def route_decision (s : MState) : String :=
  if s.done then ENDToken
  else
    let decision := s.manager_decision.getD ""
    if strContains decision "teradata" then "teradata"
    else if strContains decision "plot" then "plot"
    else ENDToken

/-- The edge relation of the compiled graph built by _build_graph: the
manager node routes through route_decision (whose outputs map to the
like-named nodes), while the teradata and plot nodes return to the
manager unconditionally. -/
def nextNode (node : String) (s : MState) : String :=
  if node = "manager" then route_decision s
  else if node = "teradata" then "manager"
  else if node = "plot" then "manager"
  else ENDToken

/-- A Python call argument that may or may not be a str, for the
isinstance check of MultiAgent.run. -/
inductive PyArg where
  | strArg (s : String)
  | nonStrArg (reprText : String)
deriving Repr

/-- The fresh state MultiAgent.run builds: is_plot false, the query,
and the chat history loaded from memory; every other key absent. -/
def multiInitState (q : String) (chatHistory : List (String × Json)) : MState :=
  { is_plot := false, user_query := q, messages := chatHistory }

/-- MultiAgent.run: reject a non-str query with ValueError, otherwise
build the initial state and return whatever the compiled app produces
for it (`app` stands for self.app.ainvoke). -/
def multiAgentRun (userQuery : PyArg) (chatHistory : List (String × Json))
    (app : MState → Except PyExc MState) : Except PyExc MState :=
  match userQuery with
  | .nonStrArg _ => .error (.valueError "User query must be a string.")
  | .strArg q => app (multiInitState q chatHistory)

/-! ## graph_agents MultiAgent.run (src/graph_agents/multi_agent.py) -/

/-- The MultiAgentState TypedDict of src/graph_agents/state.py plus the
done key that run writes at runtime; messages is optional so that the
membership test of run on the checkpoint can be expressed.  This state
has no sql_queries field. -/
structure GState where
  done : Bool := false
  is_plot : Bool := false
  user_query : String := ""
  messages : Option (List (String × Json)) := none
  response : Option Json := none
  explanation : Option Json := none
  manager_decision : Option String := none
  td_agent_response : Option Json := none
  plot_agent_response : Option Json := none
deriving Repr

/-- The fresh state the graph run builds when no usable checkpoint
exists. -/
def graphFreshState (q : String) : GState :=
  { done := false, user_query := q, is_plot := false, messages := some [] }

/-- Initial-state selection of graph_agents MultiAgent.run: when a
checkpoint exists and contains a messages key, reuse it wholesale with
the new user_query and done reset to False; otherwise build a fresh
state. -/
def graphRunInit (q : String) (checkpoint : Option GState) : GState :=
  match checkpoint with
  | some cp =>
      if cp.messages.isSome then { cp with user_query := q, done := false }
      else graphFreshState q
  | none => graphFreshState q

/-! ## Spec-side characterizations used by the claims -/

/-- Spec-side SQL capture condition as the code enforces it: a JSON
object observation whose status field is the string "success" and whose
metadata object carries a non-empty sql string. -/
def successSql (obs : Json) : Option String :=
  match obs with
  | .obj fs =>
      match jLookup fs "status" with
      | some (.str st) =>
          if st = "success" then
            match (jLookup fs "metadata").getD (.obj []) with
            | .obj mfs =>
                match jLookup mfs "sql" with
                | some (.str s) => if s = "" then none else some s
                | _ => none
            | _ => none
          else none
      | _ => none
  | _ => none

/-- SQL statements captured from a trace, in trace order. -/
def capturedSqls (obss : List Json) : List String :=
  obss.filterMap successSql

/-- Claim-literal capture condition: status equals "success" and
metadata.sql is a string (with no non-emptiness requirement). -/
def specHasSqlString (obs : Json) : Bool :=
  match obs with
  | .obj fs =>
      (match jLookup fs "status" with
       | some (.str st) => st = "success"
       | _ => false) &&
      (match (jLookup fs "metadata").getD (.obj []) with
       | .obj mfs =>
           match jLookup mfs "sql" with
           | some (.str _) => true
           | _ => false
       | _ => false)
  | _ => false

/-- Well-formedness of one observation value: it is a JSON object and,
when its status is the string "success", its metadata value is an
object whose sql field (if any) is a string or falsy.  Outside this
domain the Python loop raises AttributeError or TypeError instead of
returning. -/
def obsWF (obs : Json) : Bool :=
  match obs with
  | .obj fs =>
      match jLookup fs "status" with
      | some (.str st) =>
          if st = "success" then
            match (jLookup fs "metadata").getD (.obj []) with
            | .obj mfs =>
                match jLookup mfs "sql" with
                | some (.str _) => true
                | some v => !jTruthy v
                | none => true
            | _ => false
          else true
      | _ => true
  | _ => false

/-! ## Concrete inputs and states used by the checks below -/

/-- The empty runtime state (every optional key absent). -/
def mstEmpty : MState := {}

/-- A well-formed manager output whose decision text is upper-case. -/
def mgrOkRaw : String :=
  "\x7b\"decision\": \"TERADATA\", \"message\": \"m\", \"explanation\": \"e\"\x7d"

/-- State produced by the manager step on `mgrOkRaw`. -/
def mgrOkState : MState :=
  { manager_decision := some "teradata",
    response := some (.json (.str "m")),
    explanation := some (.json (.str "e")),
    messages := [("manager", .str "m")] }

/-- Unparseable manager output that contains a fence marker. -/
def c3raw : String := "```json not json"

/-- State produced by the manager step on `c3raw`: the stored text lost
the fence marker, so it is not the raw text verbatim. -/
def c3state : MState :=
  { manager_decision := some "done",
    response := some (.json (.str " not json")),
    explanation := some (.json (.str " not json")),
    messages := [("manager", .str " not json")] }

/-- The Scenario B raw output. -/
def scenarioBRaw : String := "I am not sure"

/-- A raw output that parses as a JSON object but has none of the
decision, message and explanation fields. -/
def c3missRaw : String := "\x7b\"foo\": \"bar\"\x7d"

/-- The field list that json.loads produces for `c3missRaw`. -/
def c3missFields : List (String × Json) := [("foo", Json.str "bar")]

/-- A syntactically valid manager JSON payload wrapped in Markdown code
fences, exactly the shape the stripping is meant to handle. -/
def c5raw : String :=
  "```json\n\x7b\"decision\": \"teradata\", \"message\": \"m\", \"explanation\": \"e\"\x7d\n```"

/-- The same payload without the fences; it parses. -/
def c5inner : String :=
  "\x7b\"decision\": \"teradata\", \"message\": \"m\", \"explanation\": \"e\"\x7d"

/-- What the three replace calls leave of `c5raw`: the closing brace of
the object is consumed together with the trailing fence. -/
def c5stripped : String :=
  "\n\x7b\"decision\": \"teradata\", \"message\": \"m\", \"explanation\": \"e\""

/-- State produced by the manager step on `c5raw`: the fallback fired. -/
def c5state : MState :=
  { manager_decision := some "done",
    response := some (.json (.str c5stripped)),
    explanation := some (.json (.str c5stripped)),
    messages := [("manager", .str c5stripped)] }

/-- An observation with status success whose metadata.sql is the empty
string: it satisfies the claim-literal capture condition but the code
skips it (empty string is falsy). -/
def emptySqlObs : Json :=
  .obj [("status", .str "success"), ("metadata", .obj [("sql", .str "")])]

/-- A small trace with one captured query and one failed tool call. -/
def sqlTraceEx : List (String × Json) :=
  [("base_readQuery",
      .obj [("status", .str "success"),
            ("results", .arr [.num 1]),
            ("metadata", .obj [("sql", .str "SELECT 1")])]),
   ("base_readQuery", .obj [("status", .str "error")])]

/-- A state carrying earlier turn data, used to check frame
conditions. -/
def frameStateEx : MState :=
  { user_query := "show revenue",
    messages := [("user", .str "show revenue")],
    manager_decision := some "teradata",
    explanation := some (.json (.str "run the query")),
    sql_queries := some "old sql",
    is_plot := true }

/-- A state in which an earlier Visualize step already set is_plot. -/
def plotPriorState : MState := { is_plot := true }

/-- A state routed while holding the plot decision. -/
def routeStateEx : MState := { manager_decision := some "plot" }

/-- State produced by the manager step on the plain text hello. -/
def mgrHelloState : MState :=
  { manager_decision := some "done",
    response := some (.json (.str "hello")),
    explanation := some (.json (.str "hello")),
    messages := [("manager", .str "hello")] }

/-- State produced by the query step when ainvoke raises ValueError. -/
def tdErrState : MState :=
  { td_agent_response := some (.exc (.valueError "boom")) }

/-- An agent response with no intermediate steps. -/
def respNoSteps : AgentResponse := { output := "no chart" }

/-- A checkpointed state from an earlier turn, with messages present
and turn-scoped fields populated. -/
def cpEx : GState :=
  { done := true,
    is_plot := true,
    user_query := "old query",
    messages := some [("user", .str "hi")],
    response := some (.str "old answer"),
    manager_decision := some "plot" }

/-! ## Helper lemmas -/

/-- Rebuilding a string from its character list is the identity. -/
theorem mk_toList (s : String) : String.mk s.toList = s := by
  cases s
  rfl

/-- replaceL leaves a list unchanged when the pattern does not occur in
it, whatever the fuel. -/
theorem replaceL_eq_of_not_contains (n r : List Char) :
    (fuel : Nat) → (cs : List Char) → containsL n cs = false →
      replaceL n r fuel cs = cs
  | 0, _, _ => rfl
  | _ + 1, [], _ => rfl
  | fuel + 1, c :: cs, h => by
      simp only [containsL, Bool.or_eq_false_iff] at h
      rw [replaceL, if_neg (by simp [h.1]),
        replaceL_eq_of_not_contains n r fuel cs h.2]

/-- str.replace is the identity when the pattern is not a substring. -/
theorem pyReplace_eq_of_not_contains (s pat repl : String)
    (h : strContains s pat = false) : pyReplace s pat repl = s := by
  unfold pyReplace
  unfold strContains at h
  rw [replaceL_eq_of_not_contains _ _ _ _ h, mk_toList]

/-- Replacing occurrences by the empty list never lengthens the
list. -/
theorem replaceL_nil_length_le (n : List Char) :
    (fuel : Nat) → (cs : List Char) → (replaceL n [] fuel cs).length ≤ cs.length
  | 0, _ => Nat.le_refl _
  | _ + 1, [] => Nat.le_refl _
  | fuel + 1, c :: cs => by
      rw [replaceL]
      by_cases hyp : (!n.isEmpty && n.isPrefixOf (c :: cs)) = true
      · rw [if_pos hyp]
        simp only [List.nil_append]
        calc (replaceL n [] fuel ((c :: cs).drop n.length)).length
            ≤ ((c :: cs).drop n.length).length := replaceL_nil_length_le n fuel _
          _ ≤ (c :: cs).length := by
              rw [List.length_drop]
              omega
      · rw [if_neg hyp]
        simp only [List.length_cons]
        have := replaceL_nil_length_le n fuel cs
        omega

/-- With enough fuel, replacing the occurrences of a non-empty pattern
that does occur by the empty list strictly shortens the list. -/
theorem replaceL_nil_length_lt (n : List Char) (hn : n ≠ []) :
    (fuel : Nat) → (cs : List Char) → cs.length ≤ fuel → containsL n cs = true →
      (replaceL n [] fuel cs).length < cs.length
  | _, [], _, hc => by
      cases n with
      | nil => exact absurd rfl hn
      | cons a as => simp [containsL, List.isEmpty] at hc
  | 0, c :: cs, hlen, _ => by simp at hlen
  | fuel + 1, c :: cs, hlen, hc => by
      rw [replaceL]
      by_cases hyp : (!n.isEmpty && n.isPrefixOf (c :: cs)) = true
      · rw [if_pos hyp]
        simp only [List.nil_append]
        have h1 := replaceL_nil_length_le n fuel ((c :: cs).drop n.length)
        have h2 : 1 ≤ n.length := by
          cases n with
          | nil => exact absurd rfl hn
          | cons a as => simp
        rw [List.length_drop] at h1
        simp only [List.length_cons] at *
        omega
      · rw [if_neg hyp]
        have htail : containsL n cs = true := by
          rw [containsL] at hc
          cases hpre : n.isPrefixOf (c :: cs) with
          | true =>
              exfalso
              apply hyp
              cases n with
              | nil => exact absurd rfl hn
              | cons a as => simp [hpre]
          | false =>
              rw [hpre] at hc
              simpa using hc
        have hlen2 : cs.length ≤ fuel := by
          simp only [List.length_cons] at hlen
          omega
        simp only [List.length_cons]
        have := replaceL_nil_length_lt n hn fuel cs hlen2 htail
        omega

/-- Replacing a pattern by the empty string never lengthens the
string. -/
theorem pyReplace_empty_le (s pat : String) :
    (pyReplace s pat "").toList.length ≤ s.toList.length :=
  replaceL_nil_length_le pat.toList s.toList.length s.toList

/-- Replacing a non-empty pattern that occurs by the empty string
strictly shortens the string. -/
theorem pyReplace_empty_lt (s pat : String) (hp : pat.toList ≠ [])
    (hc : strContains s pat = true) :
    (pyReplace s pat "").toList.length < s.toList.length :=
  replaceL_nil_length_lt pat.toList hp s.toList.length s.toList (Nat.le_refl _) hc

/-- The fence stripping is the identity exactly when the raw text
contains none of the three markers: each replace deletes its pattern,
so a present marker strictly shortens the text at its stage while the
other stages never lengthen it. -/
theorem stripFences_eq_iff (raw : String) :
    stripFences raw = raw ↔
      (strContains raw fenceJson = false ∧ strContains raw fenceCloseNl = false ∧
       strContains raw fenceClose = false) := by
  constructor
  · intro heq
    by_cases h1 : strContains raw fenceJson = true
    · exfalso
      have l1 := pyReplace_empty_lt raw fenceJson (by decide) h1
      have l2 := pyReplace_empty_le (pyReplace raw fenceJson "") fenceCloseNl
      have l3 := pyReplace_empty_le
        (pyReplace (pyReplace raw fenceJson "") fenceCloseNl "") fenceClose
      have hlt : (stripFences raw).toList.length < raw.toList.length := by
        unfold stripFences
        omega
      rw [heq] at hlt
      omega
    · have h1f : strContains raw fenceJson = false := by
        revert h1
        cases strContains raw fenceJson <;> simp
      have e1 : pyReplace raw fenceJson "" = raw := pyReplace_eq_of_not_contains _ _ _ h1f
      by_cases h2 : strContains raw fenceCloseNl = true
      · exfalso
        have l2 := pyReplace_empty_lt raw fenceCloseNl (by decide) h2
        have l3 := pyReplace_empty_le (pyReplace raw fenceCloseNl "") fenceClose
        have hlt : (stripFences raw).toList.length < raw.toList.length := by
          unfold stripFences
          rw [e1]
          omega
        rw [heq] at hlt
        omega
      · have h2f : strContains raw fenceCloseNl = false := by
          revert h2
          cases strContains raw fenceCloseNl <;> simp
        have e2 : pyReplace raw fenceCloseNl "" = raw :=
          pyReplace_eq_of_not_contains _ _ _ h2f
        by_cases h3 : strContains raw fenceClose = true
        · exfalso
          have l3 := pyReplace_empty_lt raw fenceClose (by decide) h3
          have hlt : (stripFences raw).toList.length < raw.toList.length := by
            unfold stripFences
            rw [e1, e2]
            omega
          rw [heq] at hlt
          omega
        · refine ⟨h1f, h2f, ?_⟩
          revert h3
          cases strContains raw fenceClose <;> simp
  · rintro ⟨h1, h2, h3⟩
    unfold stripFences
    rw [pyReplace_eq_of_not_contains _ _ _ h1, pyReplace_eq_of_not_contains _ _ _ h2,
        pyReplace_eq_of_not_contains _ _ _ h3]

/-- Only null tests beq-equal to null. -/
theorem json_beq_null_eq (t : Json) (h : Json.beq t Json.null = true) :
    t = Json.null := by
  cases t <;> simp_all [Json.beq]

/-- Inversion of a successful manager step: it is exactly the record
update determined by the value-level outcome. -/
theorem managerCall_ok (raw : String) (s s2 : MState)
    (h : managerCall raw s = .ok s2) :
    ∃ md rv ev, managerOutcome raw = .ok (md, rv, ev) ∧
      s2 = { s with
        manager_decision := some md,
        response := jsonToField rv,
        explanation := jsonToField ev,
        messages := s.messages ++ [("manager", rv)] } := by
  unfold managerCall at h
  cases ho : managerOutcome raw with
  | error e => rw [ho] at h; exact absurd h (by simp)
  | ok triple =>
      obtain ⟨md, rv, ev⟩ := triple
      rw [ho] at h
      injection h with h2
      exact ⟨md, rv, ev, rfl, h2.symm⟩

/-- The decision component of the manager outcome is the normalization
of the decision text. -/
theorem managerOutcome_decision (raw : String) (md : String) (rv ev : Json)
    (h : managerOutcome raw = .ok (md, rv, ev)) :
    md = normalizeDecision (managerDecisionText raw) := by
  unfold managerOutcome at h
  cases hr : managerRespVal raw with
  | error e => rw [hr] at h; exact absurd h (by simp)
  | ok v =>
      rw [hr] at h
      injection h with h2
      have := congrArg Prod.fst h2
      simpa using this.symm

/-! ## Claim C1 -/

/-- C1: after every successful Manager step the manager_decision field
holds the normalization of the decision text (lower-cased upstream in
managerParse, substring-tested against teradata, then plot, then done,
in that priority order, first match winning and no match defaulting to
done), and that value is always one of the three strings teradata, plot
and done, never absent. -/
theorem manager_decision_enumerated (raw : String) (s s2 : MState)
    (h : managerCall raw s = .ok s2) :
    s2.manager_decision = some (normalizeDecision (managerDecisionText raw)) ∧
    (s2.manager_decision = some "teradata" ∨ s2.manager_decision = some "plot" ∨
     s2.manager_decision = some "done") := by
  obtain ⟨md, rv, ev, ho, rfl⟩ := managerCall_ok raw s s2 h
  have hmd := managerOutcome_decision raw md rv ev ho
  subst hmd
  refine ⟨rfl, ?_⟩
  unfold normalizeDecision
  split_ifs <;> simp

/-- C1 witness: the Manager step on a payload whose decision text is
TERADATA stores the decision teradata. -/
theorem manager_decision_enumerated_check :
    mgrOkState.manager_decision = some (normalizeDecision (managerDecisionText mgrOkRaw)) ∧
    (mgrOkState.manager_decision = some "teradata" ∨
     mgrOkState.manager_decision = some "plot" ∨
     mgrOkState.manager_decision = some "done") :=
  manager_decision_enumerated mgrOkRaw mstEmpty mgrOkState (by rfl)

/-! ## Claim C2 -/

/-- C2: the routing relation of the compiled graph.  From the manager
node with done unset, the next node is teradata iff the normalized
decision is teradata, plot iff it is plot, and END otherwise (also when
the decision is absent); from the teradata and plot nodes the next node
is unconditionally the manager. -/
theorem router_transitions (s : MState) (d : String) (hdone : s.done = false) :
    (s.manager_decision = some d →
      (d = "teradata" ∨ d = "plot" ∨ d = "done") →
      ((nextNode "manager" s = "teradata" ↔ d = "teradata") ∧
       (nextNode "manager" s = "plot" ↔ d = "plot") ∧
       (d = "done" → nextNode "manager" s = ENDToken))) ∧
    (s.manager_decision = none → nextNode "manager" s = ENDToken) ∧
    nextNode "teradata" s = "manager" ∧
    nextNode "plot" s = "manager" := by
  refine ⟨?_, ?_, rfl, rfl⟩
  · intro hd hset
    rcases hset with rfl | rfl | rfl <;>
      simp only [nextNode, route_decision, hdone, hd] <;> decide
  · intro hd
    simp only [nextNode, route_decision, hdone, hd]
    decide

/-- C2 witness: from the manager node holding the plot decision the
next node is plot, and the teradata node returns to the manager. -/
theorem router_transitions_check :
    (nextNode "manager" routeStateEx = "plot" ↔ ("plot" : String) = "plot") ∧
    nextNode "teradata" routeStateEx = "manager" := by
  have h := router_transitions routeStateEx "plot" (by rfl)
  exact ⟨(h.1 (by rfl) (Or.inr (Or.inl rfl))).2.1, h.2.2.1⟩

/-! ## Claim C3 -/

/-- C3 counterexample: on the unparseable raw output that contains a
fence marker, the Manager step stores the marker-stripped text, not the
original raw text verbatim, in the response field. -/
theorem manager_fallback_not_verbatim :
    managerCall c3raw mstEmpty = .ok c3state ∧
    c3state.response = some (.json (.str " not json")) ∧
    " not json" ≠ c3raw :=
  ⟨by rfl, rfl, by decide⟩

/-- C3 amended: on any raw output whose fence-stripped form fails to
parse as JSON, the Manager step sets the decision to done and stores
the fence-stripped text as both response and explanation (and in the
appended message); the stored text equals the raw text verbatim if and
only if the raw text contains none of the three fence markers; and on
any raw output that parses to a JSON object missing the decision field,
or with a string decision but missing message or explanation, the step
sets the decision to done and stores the output field of the object, or
the empty string when there is none, in place of the raw text. -/
theorem manager_fallback_sets_stripped_text (raw : String) (s : MState)
    (fs : List (String × Json)) :
    (pyJsonLoads (stripFences raw) = none →
      managerCall raw s = .ok { s with
        manager_decision := some "done",
        response := some (.json (.str (stripFences raw))),
        explanation := some (.json (.str (stripFences raw))),
        messages := s.messages ++ [("manager", Json.str (stripFences raw))] }) ∧
    (stripFences raw = raw ↔
      (strContains raw fenceJson = false ∧ strContains raw fenceCloseNl = false ∧
       strContains raw fenceClose = false)) ∧
    (pyJsonLoads (stripFences raw) = some (.obj fs) →
      (jLookup fs "decision" = none ∨
       (∃ d, jLookup fs "decision" = some (.str d) ∧
         (jLookup fs "message" = none ∨ jLookup fs "explanation" = none))) →
      managerCall raw s = .ok { s with
        manager_decision := some "done",
        response := jsonToField ((jLookup fs "output").getD (.str "")),
        explanation := jsonToField ((jLookup fs "output").getD (.str "")),
        messages := s.messages ++
          [("manager", (jLookup fs "output").getD (.str ""))] }) := by
  refine ⟨?_, stripFences_eq_iff raw, ?_⟩
  · intro hfail
    have hp : managerParse raw = .fallbackText (stripFences raw) := by
      unfold managerParse
      rw [hfail]
    unfold managerCall managerOutcome managerRespVal managerMessage managerExplanation
      managerDecisionText
    rw [hp]
    rfl
  · intro hparse hmiss
    have hp : managerParse raw =
        .fallbackDict fs ((jLookup fs "output").getD (Json.str "")) := by
      unfold managerParse
      rw [hparse]
      dsimp only
      rcases hmiss with hdec | ⟨d, hdec, hme⟩
      · rw [hdec]
      · rw [hdec]
        dsimp only
        rcases hme with hm | he
        · rw [hm]
        · cases hm2 : jLookup fs "message" with
          | none => rfl
          | some m => rw [he]
    have hrv : managerRespVal raw = .ok ((jLookup fs "output").getD (Json.str "")) := by
      unfold managerRespVal managerMessage
      rw [hp]
      dsimp only
      cases htn : Json.beq ((jLookup fs "output").getD (Json.str "")) Json.null with
      | false => rfl
      | true =>
          have hnull := json_beq_null_eq _ htn
          cases hl : jLookup fs "output" with
          | none =>
              exfalso
              rw [hl] at hnull
              simp at hnull
          | some v => simp
    have hout : managerOutcome raw =
        .ok ("done", (jLookup fs "output").getD (Json.str ""),
             (jLookup fs "output").getD (Json.str "")) := by
      unfold managerOutcome managerDecisionText managerExplanation
      rw [hrv, hp]
      rfl
    unfold managerCall
    rw [hout]

/-- C3 witness: Scenario B of the spec (raw output I am not sure) is
unparseable, contains no fence marker, and is preserved verbatim with
decision done; and an object payload missing the decision field stores
the empty string (no output field) with decision done. -/
theorem manager_fallback_scenarioB :
    managerCall scenarioBRaw mstEmpty = .ok { mstEmpty with
      manager_decision := some "done",
      response := some (.json (.str (stripFences scenarioBRaw))),
      explanation := some (.json (.str (stripFences scenarioBRaw))),
      messages := mstEmpty.messages ++
        [("manager", Json.str (stripFences scenarioBRaw))] } ∧
    stripFences scenarioBRaw = scenarioBRaw ∧
    managerCall c3missRaw mstEmpty = .ok { mstEmpty with
      manager_decision := some "done",
      response := jsonToField ((jLookup c3missFields "output").getD (.str "")),
      explanation := jsonToField ((jLookup c3missFields "output").getD (.str "")),
      messages := mstEmpty.messages ++
        [("manager", (jLookup c3missFields "output").getD (.str ""))] } := by
  have h1 := manager_fallback_sets_stripped_text scenarioBRaw mstEmpty []
  have h2 := manager_fallback_sets_stripped_text c3missRaw mstEmpty c3missFields
  exact ⟨h1.1 (by rfl), h1.2.1.mpr ⟨by rfl, by rfl, by rfl⟩,
         h2.2.2 (by rfl) (Or.inl (by rfl))⟩

/-! ## Claim C5 -/

/-- C5: on a well-formed JSON payload wrapped in Markdown code fences,
the replace calls delete the closing brace of the object together with
the trailing fence, so the stripped remainder does not parse even
though the unfenced payload does, and the step takes the fallback path
with decision done instead of reading the decision teradata from the
parsed object. -/
theorem fenced_json_loses_closing_brace :
    stripFences c5raw = c5stripped ∧
    pyJsonLoads c5stripped = none ∧
    pyJsonLoads c5inner =
      some (.obj [("decision", .str "teradata"), ("message", .str "m"),
                  ("explanation", .str "e")]) ∧
    managerCall c5raw mstEmpty = .ok c5state ∧
    c5state.manager_decision = some "done" :=
  ⟨by rfl, by rfl, by rfl, by rfl, rfl⟩

/-! ## Claim C6 -/

/-- C6 counterexample: an exception that is not a ValueError raised by
the underlying invocation is re-raised out of the Query step, not
captured into td_agent_response. -/
theorem teradata_other_exception_propagates :
    teradataCall (.error (.other "ConnectionError" "connection refused")) mstEmpty =
      .error (.other "ConnectionError" "connection refused") := rfl

/-- C6 amended: a ValueError raised by the underlying invocation is
caught and the exception object itself (stringified only when later
interpolated into the manager prompt) is stored as td_agent_response,
so the turn continues; every other exception kind propagates out of the
step. -/
theorem teradata_valueerror_caught (m : String) (s : MState)
    (name msg k t a : String) :
    teradataCall (.error (.valueError m)) s =
      .ok { s with td_agent_response := some (.exc (.valueError m)) } ∧
    teradataCall (.error (.other name msg)) s = .error (.other name msg) ∧
    teradataCall (.error (.keyError k)) s = .error (.keyError k) ∧
    teradataCall (.error (.typeError t)) s = .error (.typeError t) ∧
    teradataCall (.error (.attributeError a)) s = .error (.attributeError a) :=
  ⟨rfl, rfl, rfl, rfl, rfl⟩

/-! ## Claim C7 -/

/-- C7 counterexample: after a Visualize step whose trace contains no
tool invocation, is_plot can still be true, because the step only ever
sets it and the value carried over from an earlier step of the turn
survives; the biconditional with the trace of that very step fails. -/
theorem is_plot_sticky :
    (plotCall respNoSteps plotPriorState).is_plot = true ∧
    respNoSteps.intermediate_steps.length = 0 :=
  ⟨rfl, rfl⟩

/-- C7 amended: after a Visualize step, is_plot holds exactly when that
step carried at least one intermediate step (every step of this agent
invokes its only tool, the Python code-execution tool, and no file
check is performed) or is_plot was already true; it starts false in a
fresh turn state and the manager and query steps never change it. -/
theorem is_plot_proxy (resp : AgentResponse) (s : MState) (q : String)
    (hist : List (String × Json)) (raw : String)
    (inv : Except PyExc AgentResponse) (s2 s3 : MState) :
    (plotCall resp s).is_plot = (!resp.intermediate_steps.isEmpty || s.is_plot) ∧
    (multiInitState q hist).is_plot = false ∧
    (managerCall raw s = .ok s2 → s2.is_plot = s.is_plot) ∧
    (teradataCall inv s = .ok s3 → s3.is_plot = s.is_plot) := by
  refine ⟨?_, rfl, ?_, ?_⟩
  · cases resp with
    | mk out steps =>
        cases steps with
        | nil => simp [plotCall]
        | cons a rest => simp [plotCall]
  · intro h
    obtain ⟨md, rv, ev, _, rfl⟩ := managerCall_ok raw s s2 h
    rfl
  · intro h
    cases inv with
    | error e =>
        cases e with
        | valueError m =>
            unfold teradataCall at h
            injection h with h2
            rw [← h2]
        | keyError k => exact absurd h (by simp [teradataCall])
        | typeError t => exact absurd h (by simp [teradataCall])
        | attributeError a => exact absurd h (by simp [teradataCall])
        | other n m => exact absurd h (by simp [teradataCall])
    | ok resp2 =>
        unfold teradataCall at h
        dsimp only at h
        cases hp : processIntermediateLogs (resp2.intermediate_steps.map Prod.snd) with
        | error e => rw [hp] at h; exact absurd h (by simp)
        | ok sq =>
            rw [hp] at h
            injection h with h2
            rw [← h2]

/-- C7 witness: instantiation on an empty-trace response, a fresh turn
state, a plain-text manager output and a caught query failure. -/
theorem is_plot_proxy_check :
    (plotCall respNoSteps mstEmpty).is_plot =
      (!respNoSteps.intermediate_steps.isEmpty || mstEmpty.is_plot) ∧
    (multiInitState "q" []).is_plot = false ∧
    mgrHelloState.is_plot = mstEmpty.is_plot ∧
    tdErrState.is_plot = mstEmpty.is_plot := by
  have h := is_plot_proxy respNoSteps mstEmpty "q" [] "hello"
    (.error (.valueError "boom")) mgrHelloState tdErrState
  exact ⟨h.1, h.2.1, h.2.2.1 (by rfl), h.2.2.2 (by rfl)⟩

/-! ## Claim C8 -/

/-- C8 counterexample: called on a non-string query, run raises a
ValueError of its own even though the compiled app would have returned
its input state successfully, so run can fail on its own. -/
theorem orchestrator_run_raises :
    multiAgentRun (.nonStrArg "None") [] (fun s => .ok s) =
      .error (.valueError "User query must be a string.") := rfl

/-- C8 amended: for every string query, run builds the fresh initial
state and returns exactly what the compiled app produces for it, adding
no failure of its own; for a non-string query, run itself raises
ValueError before any step executes. -/
theorem orchestrator_run_forwards (q : String) (hist : List (String × Json))
    (app : MState → Except PyExc MState) (r : String) :
    multiAgentRun (.strArg q) hist app = app (multiInitState q hist) ∧
    multiAgentRun (.nonStrArg r) hist app =
      .error (.valueError "User query must be a string.") :=
  ⟨rfl, rfl⟩

/-! ## Claim C9 -/

/-- C9 counterexample: restoring from a checkpoint whose is_plot is
true and whose manager_decision is plot keeps those values in the new
turn initial state, while a fresh state would carry is_plot false; the
turn-scoped fields are not reset. -/
theorem checkpoint_fields_not_reset :
    (graphRunInit "new question" (some cpEx)).is_plot = true ∧
    (graphRunInit "new question" (some cpEx)).manager_decision = some "plot" ∧
    (graphRunInit "new question" (some cpEx)).response = some (.str "old answer") ∧
    (graphFreshState "new question").is_plot = false :=
  ⟨rfl, rfl, rfl, rfl⟩

/-- C9 amended: with a checkpoint that carries a messages key, the new
turn initial state is the whole checkpointed state with user_query set
to the new query and only done reset to False (messages and all other
fields, including is_plot and manager_decision, keep their checkpointed
values); without a usable checkpoint a fresh state is created with done
false, is_plot false and empty messages. -/
theorem checkpoint_restore (q : String) (cp : GState)
    (hmsg : cp.messages.isSome) :
    graphRunInit q (some cp) = { cp with user_query := q, done := false } ∧
    graphRunInit q none = graphFreshState q ∧
    (graphFreshState q).done = false ∧
    (graphFreshState q).is_plot = false ∧
    (graphFreshState q).messages = some [] := by
  refine ⟨?_, rfl, rfl, rfl, rfl⟩
  unfold graphRunInit
  dsimp only
  rw [if_pos hmsg]

/-- C9 witness: restoring the example checkpoint keeps its fields and
replaces only the query and the done flag. -/
theorem checkpoint_restore_check :
    graphRunInit "q2" (some cpEx) = { cpEx with user_query := "q2", done := false } ∧
    graphRunInit "q2" none = graphFreshState "q2" ∧
    (graphFreshState "q2").done = false ∧
    (graphFreshState "q2").is_plot = false ∧
    (graphFreshState "q2").messages = some [] :=
  checkpoint_restore "q2" cpEx (by rfl)

/-! ## Claim C10 -/

/-- C10: when the underlying invocation raises a ValueError (the
exception kind the step catches), the Query step returns immediately
with td_agent_response holding the exception and every other field of
the state unchanged, sql_queries included, because the SQL
post-processing never runs on this path. -/
theorem teradata_error_frame (m : String) (s s2 : MState)
    (h : teradataCall (.error (.valueError m)) s = .ok s2) :
    s2.td_agent_response = some (.exc (.valueError m)) ∧
    s2.sql_queries = s.sql_queries ∧
    s2.done = s.done ∧
    s2.user_query = s.user_query ∧
    s2.messages = s.messages ∧
    s2.response = s.response ∧
    s2.explanation = s.explanation ∧
    s2.manager_decision = s.manager_decision ∧
    s2.plot_agent_response = s.plot_agent_response ∧
    s2.is_plot = s.is_plot := by
  unfold teradataCall at h
  injection h with h2
  subst h2
  exact ⟨rfl, rfl, rfl, rfl, rfl, rfl, rfl, rfl, rfl, rfl⟩

/-- C10 witness: applied to a populated mid-turn state, the caught
failure leaves every prior field intact. -/
theorem teradata_error_frame_check :
    ({ frameStateEx with
        td_agent_response := some (.exc (.valueError "boom")) } : MState).td_agent_response =
      some (.exc (.valueError "boom")) ∧
    ({ frameStateEx with
        td_agent_response := some (.exc (.valueError "boom")) } : MState).sql_queries =
      frameStateEx.sql_queries ∧
    ({ frameStateEx with
        td_agent_response := some (.exc (.valueError "boom")) } : MState).done =
      frameStateEx.done ∧
    ({ frameStateEx with
        td_agent_response := some (.exc (.valueError "boom")) } : MState).user_query =
      frameStateEx.user_query ∧
    ({ frameStateEx with
        td_agent_response := some (.exc (.valueError "boom")) } : MState).messages =
      frameStateEx.messages ∧
    ({ frameStateEx with
        td_agent_response := some (.exc (.valueError "boom")) } : MState).response =
      frameStateEx.response ∧
    ({ frameStateEx with
        td_agent_response := some (.exc (.valueError "boom")) } : MState).explanation =
      frameStateEx.explanation ∧
    ({ frameStateEx with
        td_agent_response := some (.exc (.valueError "boom")) } : MState).manager_decision =
      frameStateEx.manager_decision ∧
    ({ frameStateEx with
        td_agent_response := some (.exc (.valueError "boom")) } : MState).plot_agent_response =
      frameStateEx.plot_agent_response ∧
    ({ frameStateEx with
        td_agent_response := some (.exc (.valueError "boom")) } : MState).is_plot =
      frameStateEx.is_plot :=
  teradata_error_frame "boom" frameStateEx
    { frameStateEx with td_agent_response := some (.exc (.valueError "boom")) } (by rfl)

/-! ## Claim C4 -/

/-- On a well-formed observation, the loop body appends exactly the
block of its captured statement (if any) and ors the found flag. -/
theorem processStep_sql (acc : Bool × List String) (obs : Json)
    (h : obsWF obs = true) :
    processStep acc obs =
      .ok (acc.1 || (successSql obs).isSome,
           acc.2 ++ ((successSql obs).map sqlBlock).toList) := by
  cases obs with
  | null => simp [obsWF] at h
  | bool b => simp [obsWF] at h
  | num n => simp [obsWF] at h
  | flt l => simp [obsWF] at h
  | str s => simp [obsWF] at h
  | arr xs => simp [obsWF] at h
  | obj fs =>
      rw [obsWF] at h
      cases hst : jLookup fs "status" with
      | none => simp [processStep, pyDictGet, hst, successSql]
      | some st =>
          rw [hst] at h
          cases st with
          | str s =>
              dsimp only at h
              by_cases hs : s = "success"
              · subst hs
                rw [if_pos rfl] at h
                simp only [processStep, pyDictGet, pyDictGetD, hst, successSql]
                rw [show jTruthy (Json.str "success") = true from rfl,
                    show Json.beq (Json.str "success") (Json.str "success") = true from rfl]
                simp only [if_true, if_pos rfl]
                cases hmd : (jLookup fs "metadata").getD (Json.obj []) with
                | obj mfs =>
                    rw [hmd] at h
                    dsimp only at h
                    dsimp only
                    cases hsql : jLookup mfs "sql" with
                    | none => simp [hsql]
                    | some sv =>
                        rw [hsql] at h
                        cases sv with
                        | str s2 =>
                            by_cases h2 : s2 = ""
                            · subst h2
                              simp [hsql, jTruthy]
                            · have ht : jTruthy (Json.str s2) = true := by
                                simp [jTruthy, h2]
                              simp [hsql, ht, h2]
                        | null => simp_all [hsql, jTruthy]
                        | bool b => cases b <;> simp_all [hsql, jTruthy]
                        | num n => simp_all [hsql, jTruthy]
                        | flt l =>
                            simp_all [hsql, jTruthy]
                            intro x hx hd
                            rcases h x hx with h1 | h1
                            · exact absurd hd (by simp [h1])
                            · exact h1
                        | arr xs => simp_all [hsql, jTruthy]
                        | obj fs2 => simp_all [hsql, jTruthy]
                | null => rw [hmd] at h; exact absurd h (by simp)
                | bool b => rw [hmd] at h; exact absurd h (by simp)
                | num n => rw [hmd] at h; exact absurd h (by simp)
                | flt l => rw [hmd] at h; exact absurd h (by simp)
                | str s2 => rw [hmd] at h; exact absurd h (by simp)
                | arr xs => rw [hmd] at h; exact absurd h (by simp)
              · have hb : Json.beq (Json.str s) (Json.str "success") = false := by
                  simp [Json.beq, hs]
                simp only [processStep, pyDictGet, hst, successSql, hb]
                cases jTruthy (Json.str s) <;> simp [hs]
          | null => simp [processStep, pyDictGet, hst, successSql, jTruthy, Json.beq]
          | bool b =>
              cases b <;> simp [processStep, pyDictGet, hst, successSql, jTruthy, Json.beq]
          | num n =>
              simp only [processStep, pyDictGet, hst, successSql, Json.beq]
              cases jTruthy (Json.num n) <;> simp
          | flt l =>
              simp only [processStep, pyDictGet, hst, successSql, Json.beq]
              cases jTruthy (Json.flt l) <;> simp
          | arr xs =>
              simp only [processStep, pyDictGet, hst, successSql, Json.beq]
              cases jTruthy (Json.arr xs) <;> simp
          | obj fs2 =>
              simp only [processStep, pyDictGet, hst, successSql, Json.beq]
              cases jTruthy (Json.obj fs2) <;> simp

/-- Running the loop over a well-formed trace appends one block per
captured statement, in trace order, and reports whether any was
found. -/
theorem processLoop_sql (obss : List Json) (h : ∀ o ∈ obss, obsWF o = true)
    (b : Bool) (msgs : List String) :
    processLoop obss (b, msgs) =
      .ok (b || !(capturedSqls obss).isEmpty,
           msgs ++ (capturedSqls obss).map sqlBlock) := by
  induction obss generalizing b msgs with
  | nil => simp [processLoop, capturedSqls]
  | cons o rest ih =>
      have ho := h o (by simp)
      have hrest : ∀ o2 ∈ rest, obsWF o2 = true := fun o2 hm => h o2 (by simp [hm])
      rw [processLoop, processStep_sql (b, msgs) o ho]
      dsimp only
      rw [ih hrest]
      cases hs : successSql o with
      | none => simp [capturedSqls, hs]
      | some s =>
          simp [capturedSqls, hs, Bool.or_assoc]

/-- C4 amended: over traces whose parsed observations are well formed
(JSON objects, object metadata, string or falsy sql), the Query step
captures exactly the observations with status success and a non-empty
metadata.sql string: zero such observations leave sql_queries empty
(None), and k of them produce exactly k fenced SQL blocks, in trace
order, each line-wrapped at column 100, under the single SQL Commands
heading; the same markdown is what the step stores in sql_queries
together with the output text in td_agent_response. -/
theorem sql_capture_blocks (steps : List (String × Json)) (out : String) (s : MState)
    (h : ∀ o ∈ steps.map Prod.snd, obsWF o = true) :
    processIntermediateLogs (steps.map Prod.snd) =
      .ok (if capturedSqls (steps.map Prod.snd) = [] then none
           else some (String.intercalate "\n"
             (sqlHeading :: (capturedSqls (steps.map Prod.snd)).map sqlBlock))) ∧
    teradataCall (.ok { output := out, intermediate_steps := steps }) s =
      .ok { s with
        td_agent_response := some (.json (.str out)),
        sql_queries :=
          if capturedSqls (steps.map Prod.snd) = [] then none
          else some (String.intercalate "\n"
            (sqlHeading :: (capturedSqls (steps.map Prod.snd)).map sqlBlock)) } := by
  have hloop := processLoop_sql (steps.map Prod.snd) h false [sqlHeading]
  have hmain : processIntermediateLogs (steps.map Prod.snd) =
      .ok (if capturedSqls (steps.map Prod.snd) = [] then none
           else some (String.intercalate "\n"
             (sqlHeading :: (capturedSqls (steps.map Prod.snd)).map sqlBlock))) := by
    rw [processIntermediateLogs, hloop]
    cases hc : capturedSqls (steps.map Prod.snd) with
    | nil => simp
    | cons a l => simp
  refine ⟨hmain, ?_⟩
  unfold teradataCall
  dsimp only
  rw [hmain]

/-- C4 counterexample: an observation with status success whose
metadata.sql is a string (the empty string) satisfies the capture
condition of the claim, yet the step captures nothing because the
truthiness test skips empty strings. -/
theorem sql_capture_skips_empty_string :
    specHasSqlString emptySqlObs = true ∧
    processIntermediateLogs [emptySqlObs] = .ok none :=
  ⟨rfl, by rfl⟩

/-- C4 witness: a two-step trace with one successful capture produces
exactly one fenced block under the heading. -/
theorem sql_capture_blocks_check :
    processIntermediateLogs (sqlTraceEx.map Prod.snd) =
      .ok (if capturedSqls (sqlTraceEx.map Prod.snd) = [] then none
           else some (String.intercalate "\n"
             (sqlHeading :: (capturedSqls (sqlTraceEx.map Prod.snd)).map sqlBlock))) ∧
    teradataCall (.ok { output := "done", intermediate_steps := sqlTraceEx }) mstEmpty =
      .ok { mstEmpty with
        td_agent_response := some (.json (.str "done")),
        sql_queries :=
          if capturedSqls (sqlTraceEx.map Prod.snd) = [] then none
          else some (String.intercalate "\n"
            (sqlHeading :: (capturedSqls (sqlTraceEx.map Prod.snd)).map sqlBlock)) } :=
  sql_capture_blocks sqlTraceEx "done" mstEmpty (by decide)

end NextBI
